import Mathlib

/-!
# Verification of the bmal1-pubmed-search core

Shallow embedding of the repository's core logic:

* `src/config_manager.py` — `PubMedConfig`, `ConfigManager._load_config`,
  `ConfigManager._load_from_env`, `ConfigManager.add_search_to_history`,
  `ConfigManager.import_config`;
* `src/local_data_manager.py` — `LocalDataManager.upload_database`,
  `LocalDataManager._validate_database`, `LocalDataManager.clear_database`,
  `LocalDataManager.has_database`;
* `src/archive/streamlit_app_v3_old.py` — `PaperDB.get_all_papers`,
  `PaperDB.search_papers`.

Python strings are modelled as Lean `String`s; `str.lower` is modelled for
the ASCII range (`Char.toLower`), which covers every string appearing in the
repository and in the concrete inputs used below.  Python's string `<=` is
lexicographic comparison of code points, modelled by `lexLe`.
-/

set_option autoImplicit false

namespace BMAL1

/-! ## String helpers -/

/-- Python `str.lower`, restricted to the ASCII range: every character is
lowered (`Char.toLower` maps `A`–`Z` to `a`–`z` and fixes everything
else). -/
def pyLower (s : String) : String := String.mk (s.data.map Char.toLower)

/-- `listPrefix needle hay`: `needle` is a prefix of `hay` (character lists). -/
def listPrefix : List Char → List Char → Bool
  | [], _ => true
  | _ :: _, [] => false
  | a :: as, b :: bs => decide (a = b) && listPrefix as bs

/-- Python's substring test `needle in hay` on character lists. -/
def containsSub (needle hay : List Char) : Bool :=
  match hay with
  | [] => listPrefix needle []
  | _ :: t => listPrefix needle hay || containsSub needle t

/-- Python's substring test `needle in hay` on strings. -/
def strContains (needle hay : String) : Bool :=
  containsSub needle.toList hay.toList

/-- Python's lexicographic string order `a <= b` (code-point comparison). -/
def lexLe : List Char → List Char → Bool
  | [], _ => true
  | _ :: _, [] => false
  | a :: as, b :: bs =>
    if a.toNat < b.toNat then true
    else if b.toNat < a.toNat then false
    else lexLe as bs

/-- Python string comparison `a <= b` on `String`. -/
def pyStrLe (a b : String) : Bool := lexLe a.toList b.toList

/-! ## ConfigManager: data model (`src/config_manager.py`) -/

/-- `PubMedConfig` dataclass (`config_manager.py`, lines 19–39). -/
structure PubMedConfig where
  email : String := ""
  api_key : String := ""
  max_results : Int := 100
  batch_size : Int := 20
  sort_by : String := "relevance"
  deriving DecidableEq, Repr

/-- `SearchParams` dataclass (`config_manager.py`, lines 42–76). -/
structure SearchParams where
  query : String
  name : String := "Custom Search"
  max_results : Int := 100
  min_date : String := ""
  max_date : String := ""
  sort_by : String := "relevance"
  retmax : Int := 100
  deriving DecidableEq, Repr

/-! ## ConfigManager: layered config resolution (`_load_config`, `_load_from_env`) -/

/-- Outcome of reading and parsing the persisted config file in
`_load_config` (lines 102–111): `none` = file absent; `some (.error ())` =
open/parse/`from_dict` raised (caught, default config used); `some (.ok c)` =
parsed successfully to `c`. -/
def ConfigFileState := Option (Except Unit PubMedConfig)

/-- Streamlit secret store as seen by `_load_config` (lines 115–124):
`st.secrets.get('pubmed_email', '')` and `st.secrets.get('api_key', '')`.
`none` models streamlit being unavailable or lacking a `secrets` attribute. -/
structure Secrets where
  pubmed_email : String := ""
  api_key : String := ""
  deriving DecidableEq, Repr

/-- One iteration of the line loop of `_load_from_env` (lines 141–152):
strip the line; skip empty lines and `#` comments; on the first `:` split
into key and value, strip both, and assign `email` / `api_key` for the keys
`pubmed_email` / `api_key`. -/
def envApplyLine (cfg : PubMedConfig) (rawLine : String) : PubMedConfig :=
  let line := rawLine.trim
  if line ≠ "" ∧ ¬ line.startsWith "#" then
    if strContains ":" line then
      let key := (line.takeWhile (· ≠ ':')).trim
      let value := (line.dropWhile (· ≠ ':')).drop 1 |>.trim
      if key = "pubmed_email" then { cfg with email := value }
      else if key = "api_key" then { cfg with api_key := value }
      else cfg
    else cfg
  else cfg

/-- `_load_from_env` (lines 130–154) applied to the resolved `.env` file:
`none` = neither env file exists (or reading raised); `some lines` = the
file's lines.  Assignments are unconditional: each matching line overwrites
the corresponding field. -/
def loadFromEnv (cfg : PubMedConfig) (env : Option (List String)) : PubMedConfig :=
  match env with
  | none => cfg
  | some lines => lines.foldl envApplyLine cfg

/-- The secrets step of `_load_config` (lines 114–124): entered only when
email or api_key is still empty; inside, each non-empty secret value is
assigned unconditionally. -/
def applySecrets (cfg : PubMedConfig) (secrets : Option Secrets) : PubMedConfig :=
  if cfg.email = "" ∨ cfg.api_key = "" then
    match secrets with
    | none => cfg
    | some s =>
      let cfg := if s.pubmed_email ≠ "" then { cfg with email := s.pubmed_email } else cfg
      let cfg := if s.api_key ≠ "" then { cfg with api_key := s.api_key } else cfg
      cfg
  else cfg

/-- `ConfigManager._load_config` (lines 99–128): file, then (if email or
api_key still empty) streamlit secrets, then (if still empty) the `.env`
file. -/
def loadConfig (file : ConfigFileState) (secrets : Option Secrets)
    (env : Option (List String)) : PubMedConfig :=
  let cfg : PubMedConfig :=
    match file with
    | none => {}
    | some (.error _) => {}
    | some (.ok c) => c
  let cfg := applySecrets cfg secrets
  if cfg.email = "" ∨ cfg.api_key = "" then loadFromEnv cfg env else cfg

/-! ## ConfigManager: bounded search history (`add_search_to_history`) -/

/-- A search-history entry as built by `add_search_to_history`
(`config_manager.py`, lines 215–221).  `success_rate` holds the formatted
percentage string (its numeric construction uses Python float formatting and
is treated separately). -/
structure HistoryItem where
  timestamp : String
  search_params : SearchParams
  result_count : Int
  success_count : Int
  success_rate : String
  deriving DecidableEq, Repr

/-- The list update of `add_search_to_history` (lines 223–226): insert the
new item at position 0, then keep only the first 100 entries. -/
def addSearchToHistory (history : List HistoryItem) (item : HistoryItem) :
    List HistoryItem :=
  ((item :: history).take 100)

/-- Repeated insertion into the history, oldest first, starting from the
empty log. -/
def insertAll (items : List HistoryItem) : List HistoryItem :=
  items.foldl addSearchToHistory []

/-! ## ConfigManager: import/export (`import_config`) -/

/-- In-memory and persisted state touched by `import_config`:
`pubmed_config` / `search_history` are the manager's in-memory fields,
`persistedConfig` / `persistedHistory` the contents of `settings.json` and
`search_history.json`. -/
structure ConfigState where
  pubmed_config : PubMedConfig
  search_history : List HistoryItem
  persistedConfig : PubMedConfig
  persistedHistory : List HistoryItem
  deriving DecidableEq, Repr

/-- Parsed content of an import file.  `pubmed_config = none` models a JSON
object without the `pubmed_config` key; `some (.error ())` one whose
`pubmed_config` value makes `PubMedConfig.from_dict` raise (e.g. an unknown
field); `some (.ok c)` one parsing to `c`.  `search_history = none` models a
missing `search_history` key. -/
structure ImportFile where
  pubmed_config : Option (Except Unit PubMedConfig)
  search_history : Option (List HistoryItem)

/-- `save_config` followed by `save_search_history` (lines 168–191) as
called at the end of a successful import: both in-memory structures are
written out whole.  Both functions swallow their own I/O errors, so the
import's exception handler never fires past this point; writes are modelled
as succeeding. -/
def persistAll (st : ConfigState) : ConfigState :=
  { st with persistedConfig := st.pubmed_config,
            persistedHistory := st.search_history }

/-- `ConfigManager.import_config` (lines 263–281).  `file = none` models an
unreadable or unparseable file (`open`/`json.load` raised).  Returns the new
state and the boolean result. -/
def importConfig (st : ConfigState) (file : Option ImportFile) :
    ConfigState × Bool :=
  match file with
  | none => (st, false)
  | some d =>
    match d.pubmed_config with
    | some (.error _) => (st, false)
    | some (.ok c) =>
      let st := { st with pubmed_config := c }
      let st :=
        match d.search_history with
        | some h => { st with search_history := h }
        | none => st
      (persistAll st, true)
    | none =>
      let st :=
        match d.search_history with
        | some h => { st with search_history := h }
        | none => st
      (persistAll st, true)

/-! ## PaperDB: record model and fetch (`src/archive/streamlit_app_v3_old.py`) -/

/-- A row of the `papers` table as read by `get_all_papers`.  The three
multi-valued columns hold their stored serialized form (`none` models SQL
NULL).  `abstract` is the one nullable text column the filter logic
branches on (`na=False`); the writer supplies strings for the remaining
columns. -/
structure StoredPaper where
  pmid : String
  title : String
  abstract : Option String
  journal : String
  pub_year : String
  pub_date : String
  authors : Option String
  keywords : Option String
  mesh_terms : Option String
  doi : Option String
  search_strategy : String
  deriving DecidableEq, Repr

/-- A decoded paper record, after the `json.loads` step of
`get_all_papers`. -/
structure Paper where
  pmid : String
  title : String
  abstract : Option String
  journal : String
  pub_year : String
  pub_date : String
  authors : List String
  keywords : List String
  mesh_terms : List String
  doi : Option String
  search_strategy : String
  deriving DecidableEq, Repr

/-- Drop leading JSON whitespace. -/
def skipWs (s : List Char) : List Char :=
  s.dropWhile (fun c => c = ' ' ∨ c = '\t' ∨ c = '\n' ∨ c = '\r')

/-- Scan the body of a JSON string up to the closing quote.  Escape
sequences and control characters are rejected (the serialized values this
repository stores contain neither). -/
def scanStr : List Char → Option (List Char × List Char)
  | [] => none
  | c :: rest =>
    if c = '"' then some ([], rest)
    else if c = '\\' then none
    else if c.toNat < 32 then none
    else
      match scanStr rest with
      | some (acc, rem) => some (c :: acc, rem)
      | none => none

/-- Parse the elements of a JSON array of strings, positioned at the start
of an element.  `fuel` bounds the recursion; `(length of the input) + 1`
suffices. -/
def parseSeq : Nat → List Char → List String → Option (List String)
  | 0, _, _ => none
  | fuel + 1, s, acc =>
    match s with
    | '"' :: rest =>
      (match scanStr rest with
       | none => none
       | some (chars, rem) =>
         match skipWs rem with
         | ',' :: tail => parseSeq fuel (skipWs tail) (acc ++ [String.mk chars])
         | ']' :: tail =>
           if skipWs tail = [] then some (acc ++ [String.mk chars]) else none
         | _ => none)
    | _ => none

/-- Modelled from the external `json.loads`, restricted to the documents
this repository stores in multi-valued columns (`json.dumps` of a list of
escape-free strings): a JSON array of strings parses to its elements; any
other document is a decode failure (`json.loads` raises on malformed
input; well-formed JSON of another shape does not occur in stores written
by this code and is conservatively rejected). -/
def jsonLoadsStrList (s : String) : Option (List String) :=
  match skipWs s.toList with
  | '[' :: rest =>
    (match skipWs rest with
     | ']' :: tail => if skipWs tail = [] then some [] else none
     | body => parseSeq (s.length + 1) body [])
  | _ => none

/-- The per-cell decode `json.loads(x) if x else []` of `get_all_papers`
(lines 157–159): NULL and the empty string degrade to `[]`; any other
undecodable value raises (propagated as `.error`). -/
def decodeField (x : Option String) : Except Unit (List String) :=
  match x with
  | none => .ok []
  | some s =>
    if s = "" then .ok []
    else
      match jsonLoadsStrList s with
      | some l => .ok l
      | none => .error ()

/-- Decode one row; a raised decode error aborts the row. -/
def decodeRow (r : StoredPaper) : Except Unit Paper := do
  let authors ← decodeField r.authors
  let keywords ← decodeField r.keywords
  let mesh ← decodeField r.mesh_terms
  pure { pmid := r.pmid, title := r.title, abstract := r.abstract,
         journal := r.journal, pub_year := r.pub_year,
         pub_date := r.pub_date, authors := authors, keywords := keywords,
         mesh_terms := mesh, doi := r.doi,
         search_strategy := r.search_strategy }

/-- `PaperDB.get_all_papers` (lines 148–161): materialize every row and
decode the three multi-valued columns; an exception in any one decode
aborts the whole fetch.  (The source decodes column by column via pandas
`apply`; which failing cell raises first is immaterial to the
abort-versus-return outcome modelled here.) -/
def getAllPapers : List StoredPaper → Except Unit (List Paper)
  | [] => .ok []
  | r :: rest =>
    match decodeRow r, getAllPapers rest with
    | .ok p, .ok ps => .ok (p :: ps)
    | .ok _, .error e => .error e
    | .error e, _ => .error e

/-! ## PaperDB: keyword / strategy / year filtering (`search_papers`) -/

/-- Match of one pattern character under `re` semantics: `.` matches any
character except newline, every other non-metacharacter matches itself. -/
def regexCharMatch (p c : Char) : Bool :=
  if p = '.' then c ≠ '\n' else p = c

/-- Anchored match of a pattern at the head of a string, for patterns built
only from literal characters and `.`. -/
def regexMatchAt : List Char → List Char → Bool
  | [], _ => true
  | _ :: _, [] => false
  | p :: ps, c :: cs => regexCharMatch p c && regexMatchAt ps cs

/-- Modelled from the external `re.search` as invoked by pandas
`Series.str.contains(pat)` (the default `regex=True`): the pattern is tried
at every position of the string.  Faithful for patterns whose characters
are all literals or `.`; patterns using other regex metacharacters are
outside this model. -/
def regexSearch (pat s : List Char) : Bool :=
  match s with
  | [] => regexMatchAt pat []
  | _ :: cs => regexMatchAt pat s || regexSearch pat cs

/-- The regex metacharacters of Python `re`
(`. ^ $ * + ? { } [ ] \ | ( )`), by code point. -/
def isRegexMeta (c : Char) : Bool :=
  c.toNat = 46 || c.toNat = 94 || c.toNat = 36 || c.toNat = 42 ||
  c.toNat = 43 || c.toNat = 63 || c.toNat = 123 || c.toNat = 125 ||
  c.toNat = 91 || c.toNat = 93 || c.toNat = 92 || c.toNat = 124 ||
  c.toNat = 40 || c.toNat = 41

/-- A search term free of regex metacharacters. -/
def regexLiteralStr (s : String) : Bool :=
  s.toList.all (fun c => ¬ isRegexMeta c)

/-- The keyword predicate of `search_papers` (lines 214–220):
`title.lower().contains(kw)` (regex, `na=False`) OR the same on `abstract`
OR plain-substring membership in some lowercased keyword. -/
def keywordPred (keyword : String) (p : Paper) : Bool :=
  regexSearch (pyLower keyword).toList (pyLower p.title).toList
  || (match p.abstract with
      | some a => regexSearch (pyLower keyword).toList (pyLower a).toList
      | none => false)
  || p.keywords.any (fun k => containsSub (pyLower keyword).toList (pyLower k).toList)

/-- The strategy predicate (line 223): exact equality of
`search_strategy`. -/
def strategyPred (strategy : String) (p : Paper) : Bool :=
  p.search_strategy = strategy

/-- The year-range predicate (lines 226–229): Python string comparison
`lo <= pub_year <= hi`. -/
def yearPred (lo hi : String) (p : Paper) : Bool :=
  pyStrLe lo p.pub_year && pyStrLe p.pub_year hi

/-- `PaperDB.search_papers` (lines 206–231) on an already-decoded record
collection: keyword filter when the keyword is non-empty, strategy filter
when the strategy is non-empty and not the sentinel `"全部"`, year filter
when a range is given; conjunctive composition, source order preserved. -/
def searchPapers (records : List Paper) (keyword strategy : String)
    (yearRange : Option (String × String)) : List Paper :=
  let df := records
  let df := if keyword ≠ "" then df.filter (keywordPred keyword) else df
  let df :=
    if strategy ≠ "" ∧ strategy ≠ "全部" then df.filter (strategyPred strategy)
    else df
  match yearRange with
  | none => df
  | some (lo, hi) => df.filter (yearPred lo hi)

/-- The spec's reading of the keyword filter: plain (non-regex) substring
containment against lowercased title, abstract, and keywords.  Stated from
the spec's words, to be compared with `keywordPred`. -/
def specKeywordMatch (keyword : String) (p : Paper) : Bool :=
  containsSub (pyLower keyword).toList (pyLower p.title).toList
  || (match p.abstract with
      | some a => containsSub (pyLower keyword).toList (pyLower a).toList
      | none => false)
  || p.keywords.any (fun k => containsSub (pyLower keyword).toList (pyLower k).toList)

/-- A four-character all-digit year string (digits are code points
48–57). -/
def fourDigit (s : String) : Bool :=
  s.toList.length = 4 && s.toList.all (fun c => 48 ≤ c.toNat && c.toNat ≤ 57)

/-! ## LocalDataManager (`src/local_data_manager.py`) -/

/-- Content of a candidate database file as far as validation observes it:
whether `sqlite3.connect` + the table query succeed on it, and which of the
required tables exist. -/
structure DBContent where
  connectable : Bool
  tables : List String
  deriving DecidableEq, Repr

/-- The filesystem of temp stores: an association of paths to database
files. -/
def Fs := List (String × DBContent)

/-- Path lookup (`Path(p).exists()` / reading the file at `p`). -/
def fsLookup (fs : Fs) (p : String) : Option DBContent :=
  match fs with
  | [] => none
  | (q, c) :: rest => if q = p then some c else fsLookup rest p

/-- Write a file (create or overwrite). -/
def fsWrite (fs : Fs) (p : String) (c : DBContent) : Fs :=
  (p, c) :: (fs : List (String × DBContent)).filter (fun e => e.1 ≠ p)

/-- `Path(p).unlink()`. -/
def fsErase (fs : Fs) (p : String) : Fs :=
  (fs : List (String × DBContent)).filter (fun e => e.1 ≠ p)

/-- The `st.session_state` keys the manager uses. -/
structure SessionSt where
  db_path : Option String
  db_initialized : Bool
  db_token : Option String
  deriving DecidableEq, Repr

/-- `LocalDataManager.has_database` (lines 43–46): a path is set, non-empty
(`bool(p)`), and the file exists. -/
def hasDatabase (st : SessionSt) (fs : Fs) : Bool :=
  match st.db_path with
  | none => false
  | some p => p ≠ "" && (fsLookup fs p).isSome

/-- `LocalDataManager._validate_database` (lines 157–175): `False` when
connecting or querying raises, otherwise `'papers' in tables`. -/
def validateDatabase (c : DBContent) : Bool :=
  c.connectable && c.tables.contains "papers"

/-- `LocalDataManager.upload_database` (lines 119–155): write the uploaded
bytes to a fresh temp path; if validation succeeds bind it as the session
database, else unlink the candidate and return false.  `tok` is the
`datetime.now().isoformat()` value. -/
def uploadDatabase (st : SessionSt) (fs : Fs) (content : DBContent)
    (tempPath tok : String) : SessionSt × Fs × Bool :=
  let fs1 := fsWrite fs tempPath content
  if validateDatabase content then
    ({ db_path := some tempPath, db_initialized := true, db_token := some tok },
     fs1, true)
  else
    (st, fsErase fs1 tempPath, false)

/-- `LocalDataManager.clear_database` (lines 248–260): if a database
exists, try to unlink it (any exception is swallowed; `unlinkOk = false`
models a failed deletion); then unconditionally unbind the handle. -/
def clearDatabase (st : SessionSt) (fs : Fs) (unlinkOk : Bool)
    (tok : String) : SessionSt × Fs :=
  let fs' :=
    if hasDatabase st fs then
      match st.db_path with
      | some p => if unlinkOk then fsErase fs p else fs
      | none => fs
    else fs
  ({ db_path := none, db_initialized := false, db_token := some tok }, fs')

/-! ## Concrete data for witnesses and counterexamples -/

/-- A history entry distinguished by its `result_count`. -/
def demoItem (n : Nat) : HistoryItem :=
  { timestamp := "t", search_params := { query := "q" },
    result_count := n, success_count := 0, success_rate := "0%" }

/-- 105 distinct history entries, oldest first. -/
def demoItems : List HistoryItem := (List.range 105).map demoItem

/-- A paper whose title is `"abc"` and whose other text fields are
trivial. -/
def demoPaperAbc : Paper :=
  { pmid := "1", title := "abc", abstract := none, journal := "J",
    pub_year := "2020", pub_date := "2020-01", authors := [], keywords := [],
    mesh_terms := [], doi := none, search_strategy := "s1" }

/-- A paper mentioning BMAL1 in its title. -/
def demoPaperBmal : Paper :=
  { pmid := "2", title := "BMAL1 and circadian rhythm", abstract := some "A study",
    journal := "J", pub_year := "2021", pub_date := "2021-02", authors := [],
    keywords := ["clock gene"], mesh_terms := [], doi := none,
    search_strategy := "s1" }

/-- A paper with the sentinel `"Unknown"` publication year. -/
def demoPaperUnknown : Paper :=
  { pmid := "3", title := "old paper", abstract := none, journal := "K",
    pub_year := "Unknown", pub_date := "", authors := [], keywords := [],
    mesh_terms := [], doi := none, search_strategy := "s2" }

/-- A stored row whose `keywords` column holds a non-empty value that is
not valid JSON. -/
def demoBadRow : StoredPaper :=
  { pmid := "9", title := "t", abstract := none, journal := "J",
    pub_year := "2020", pub_date := "", authors := none,
    keywords := some "not json", mesh_terms := none, doi := none,
    search_strategy := "s1" }

/-- A stored row with a NULL `authors` column, an empty `keywords` column
and a well-formed `mesh_terms` column. -/
def demoGoodRow : StoredPaper :=
  { pmid := "8", title := "u", abstract := some "abs", journal := "J",
    pub_year := "2021", pub_date := "", authors := none,
    keywords := some "", mesh_terms := some "[\"Circadian Rhythm\"]",
    doi := none, search_strategy := "s1" }

/-! ## Helper lemmas -/

theorem lexLe_refl (l : List Char) : lexLe l l = true := by
  induction l with
  | nil => rfl
  | cons a as ih => simp [lexLe, ih]

theorem fsLookup_fsErase_self (fs : Fs) (p : String) :
    fsLookup (fsErase fs p) p = none := by
  induction fs with
  | nil => rfl
  | cons e rest ih =>
    by_cases h : e.1 = p
    · simpa [fsErase, h] using ih
    · simpa [fsErase, fsLookup, h] using ih

theorem fsErase_of_lookup_none (fs : Fs) (p : String)
    (h : fsLookup fs p = none) : fsErase fs p = fs := by
  induction fs with
  | nil => rfl
  | cons e rest ih =>
    cases e with
    | mk q c =>
      by_cases he : q = p
      · simp [fsLookup, he] at h
      · have h' : fsLookup rest p = none := by simpa [fsLookup, he] using h
        have := ih h'
        simp only [fsErase] at this ⊢
        rw [List.filter_cons_of_pos (by simpa using he), this]

theorem fsErase_fsWrite (fs : Fs) (p : String) (c : DBContent) :
    fsErase (fsWrite fs p c) p = fsErase fs p := by
  simp [fsErase, fsWrite, List.filter_filter]

/-! ## C10: `clear_database` never raises and always unbinds -/

/-- C10: `clear_database` never raises — any exception from deleting the
physical store is swallowed (modelled by the `unlinkOk` flag on which the
result does not depend for the handle), and the handle is unconditionally
unbound, so `has_database()` returns `false` immediately after the call,
for every session state, filesystem, deletion outcome, and token. -/
theorem c10_clear_database_unbinds (st : SessionSt) (fs : Fs)
    (unlinkOk : Bool) (tok : String) :
    hasDatabase (clearDatabase st fs unlinkOk tok).1
        (clearDatabase st fs unlinkOk tok).2 = false ∧
    (clearDatabase st fs unlinkOk tok).1.db_path = none ∧
    (clearDatabase st fs unlinkOk tok).1.db_initialized = false := by
  refine ⟨?_, rfl, rfl⟩
  simp [clearDatabase, hasDatabase]

/-! ## C9: rejected upload preserves the session handle -/

/-- C9: for every session state and every uploaded artifact whose
validation fails because it lacks a `papers` table, `upload_database`
returns `false`, discards the candidate file (it is absent from the
filesystem afterwards), leaves the bound handle exactly as it was, and
leaves the value of `has_database()` unchanged.  The temp path is fresh, as
produced by `NamedTemporaryFile`. -/
theorem c9_upload_rejected_preserves (st : SessionSt) (fs : Fs)
    (content : DBContent) (tempPath tok : String)
    (hpapers : content.tables.contains "papers" = false)
    (hfresh : fsLookup fs tempPath = none) :
    (uploadDatabase st fs content tempPath tok).2.2 = false ∧
    (uploadDatabase st fs content tempPath tok).1 = st ∧
    fsLookup (uploadDatabase st fs content tempPath tok).2.1 tempPath = none ∧
    hasDatabase (uploadDatabase st fs content tempPath tok).1
        (uploadDatabase st fs content tempPath tok).2.1 =
      hasDatabase st fs := by
  have hval : validateDatabase content = false := by
    simp only [validateDatabase, hpapers, Bool.and_false]
  have hfs : (uploadDatabase st fs content tempPath tok).2.1 = fs := by
    simp only [uploadDatabase, hval]
    simp [fsErase_fsWrite, fsErase_of_lookup_none fs tempPath hfresh]
  refine ⟨by simp [uploadDatabase, hval], by simp [uploadDatabase, hval], ?_, ?_⟩
  · rw [hfs]; exact hfresh
  · rw [hfs]; simp [uploadDatabase, hval]

/-- Witness for C9 at a concrete state: an empty session, a filesystem
holding one database at `"old.db"`, and an uploaded artifact containing
only a `search_history` table. -/
theorem c9_upload_witness :
    (uploadDatabase ⟨some "old.db", true, none⟩ [("old.db", ⟨true, ["papers"]⟩)]
        ⟨true, ["search_history"]⟩ "tmp1.db" "t").2.2 = false ∧
    (uploadDatabase ⟨some "old.db", true, none⟩ [("old.db", ⟨true, ["papers"]⟩)]
        ⟨true, ["search_history"]⟩ "tmp1.db" "t").1 = ⟨some "old.db", true, none⟩ := by
  have h := c9_upload_rejected_preserves ⟨some "old.db", true, none⟩
    [("old.db", ⟨true, ["papers"]⟩)] ⟨true, ["search_history"]⟩ "tmp1.db" "t"
    (by decide) (by decide)
  exact ⟨h.1, h.2.1⟩

/-! ## C1: layered config resolution -/

/-- C1, counterexample: the claim says a later source never overwrites a
field already populated by an earlier one — in particular that a config
file with a non-empty email and empty api_key keeps its email against a
secret store supplying a different email.  In the code the secrets step is
guarded per object, not per field: because the api_key is still empty, the
step runs and its non-empty email value overwrites the file-loaded
email. -/
theorem c1_overwrite_counterexample :
    (loadConfig (some (.ok { email := "a@b.c", api_key := "" }))
        (some { pubmed_email := "x@y.z", api_key := "" }) none).email = "x@y.z" ∧
    "x@y.z" ≠ "a@b.c" := by
  constructor
  · rfl
  · decide

/-- C1, amended: a later source is consulted only while email or api_key is
still empty, but once consulted it overwrites fields wholesale.  Precisely:
(1) if the file supplies both a non-empty email and a non-empty api_key,
neither the secret store nor the env file is consulted and the file's
config is returned unchanged; (2) if the file supplies a non-empty email
but an empty api_key, a secret store supplying a non-empty email (and no
api_key) replaces the file-loaded email. -/
theorem c1_layered_resolution_amended (c : PubMedConfig) (s : Secrets)
    (secrets : Option Secrets) (env : Option (List String)) :
    (c.email ≠ "" ∧ c.api_key ≠ "" → loadConfig (some (.ok c)) secrets env = c) ∧
    (c.email ≠ "" ∧ c.api_key = "" ∧ s.pubmed_email ≠ "" ∧ s.api_key = "" →
      loadConfig (some (.ok c)) (some s) none = { c with email := s.pubmed_email }) := by
  constructor
  · rintro ⟨he, hk⟩
    simp [loadConfig, applySecrets, he, hk]
  · rintro ⟨he, hk, hse, hsk⟩
    simp [loadConfig, applySecrets, loadFromEnv, he, hk, hse, hsk]

/-- Witness for C1 amended, at the file config `(email "a@b.c", api_key
"k")` resp. `(email "a@b.c", api_key "")` against a secret store supplying
only the email `"x@y.z"`. -/
theorem c1_layered_resolution_witness :
    loadConfig (some (.ok { email := "a@b.c", api_key := "k" }))
        (some { pubmed_email := "x@y.z", api_key := "" }) none =
      { email := "a@b.c", api_key := "k" } ∧
    loadConfig (some (.ok { email := "a@b.c", api_key := "" }))
        (some { pubmed_email := "x@y.z", api_key := "" }) none =
      { email := "x@y.z", api_key := "" } := by
  constructor
  · exact (c1_layered_resolution_amended { email := "a@b.c", api_key := "k" }
      { pubmed_email := "x@y.z", api_key := "" }
      (some { pubmed_email := "x@y.z", api_key := "" }) none).1 ⟨by decide, by decide⟩
  · exact (c1_layered_resolution_amended { email := "a@b.c", api_key := "" }
      { pubmed_email := "x@y.z", api_key := "" }
      (some { pubmed_email := "x@y.z", api_key := "" }) none).2
      ⟨by decide, rfl, by decide, rfl⟩

/-! ## C3: import with a missing `pubmed_config` key -/

/-- C3, counterexample: the claim says an import file lacking the
`pubmed_config` key leaves the in-memory config unchanged **and returns
failure**.  The code indeed leaves the config unchanged, but falls through
to the save calls and returns `True`. -/
theorem c3_import_missing_key_counterexample :
    (importConfig ⟨{ email := "e" }, [], {}, []⟩ (some ⟨none, none⟩)).1.pubmed_config =
      { email := "e" } ∧
    (importConfig ⟨{ email := "e" }, [], {}, []⟩ (some ⟨none, none⟩)).2 = true := by
  exact ⟨rfl, rfl⟩

/-- C3, amended: an import file lacking the `pubmed_config` key leaves the
in-memory config unchanged but returns success (re-persisting the current
state, and replacing the history if the file supplies one); an import that
does return failure (unreadable or unparseable file, or a `pubmed_config`
payload on which `from_dict` raises) leaves the whole prior state —
in-memory config and history and both persisted files — untouched. -/
theorem c3_import_amended (st : ConfigState) (f : ImportFile) :
    (f.pubmed_config = none →
      (importConfig st (some f)).1.pubmed_config = st.pubmed_config ∧
      (importConfig st (some f)).2 = true) ∧
    (∀ file : Option ImportFile,
      (importConfig st file).2 = false → (importConfig st file).1 = st) := by
  constructor
  · intro hnone
    cases f with
    | mk pc sh =>
      cases hnone
      cases sh <;> simp [importConfig, persistAll]
  · intro file hfail
    match file with
    | none => rfl
    | some d =>
      cases hpc : d.pubmed_config with
      | none =>
        exfalso
        cases hsh : d.search_history <;>
          simp [importConfig, hpc, hsh] at hfail
      | some r =>
        cases r with
        | error e => simp [importConfig, hpc]
        | ok c =>
          exfalso
          cases hsh : d.search_history <;>
            simp [importConfig, hpc, hsh] at hfail

/-- Witness for C3 amended: a concrete state imported from a file without
the `pubmed_config` key, and a failing import (unreadable file). -/
theorem c3_import_witness :
    (importConfig ⟨{ email := "e" }, [], {}, []⟩ (some ⟨none, none⟩)).1.pubmed_config =
      { email := "e" } ∧
    (importConfig ⟨{ email := "e" }, [], {}, []⟩ (some ⟨none, none⟩)).2 = true ∧
    (importConfig ⟨{ email := "e" }, [], {}, []⟩ none).1 = ⟨{ email := "e" }, [], {}, []⟩ := by
  have h := c3_import_amended ⟨{ email := "e" }, [], {}, []⟩ ⟨none, none⟩
  exact ⟨(h.1 rfl).1, (h.1 rfl).2, h.2 none rfl⟩

/-! ## C2: bounded, newest-first search history -/

theorem foldl_addSearchToHistory (items : List HistoryItem)
    (acc : List HistoryItem) (hacc : acc.length ≤ 100) :
    items.foldl addSearchToHistory acc = (items.reverse ++ acc).take 100 := by
  induction items generalizing acc with
  | nil => simp [List.take_of_length_le hacc]
  | cons e rest ih =>
    rw [List.foldl_cons, ih (addSearchToHistory acc e)
      (by simp [addSearchToHistory])]
    simp only [addSearchToHistory, List.reverse_cons, List.append_assoc,
      List.singleton_append]
    rw [List.take_append_eq_append_take, List.take_append_eq_append_take,
      List.take_take]
    simp [Nat.min_def]

theorem insertAll_eq (items : List HistoryItem) :
    insertAll items = items.reverse.take 100 := by
  simpa using foldl_addSearchToHistory items [] (by simp)

/-- C2: starting from the empty log, after inserting any 105 distinct
entries (oldest first) the stored history has exactly 100 entries, position
`i` holds the `(105 - i)`-th inserted entry — so the newest is at position
0 and every prefix is ordered newest-to-oldest — and the 5 oldest entries
are absent. -/
theorem c2_history_bounded (items : List HistoryItem)
    (h105 : items.length = 105) (hnd : items.Nodup) :
    (insertAll items).length = 100 ∧
    (∀ i, i < 100 → (insertAll items)[i]? = items[104 - i]?) ∧
    (∀ j, j < 5 → ∀ x, items[j]? = some x → x ∉ insertAll items) := by
  have he : insertAll items = items.reverse.take 100 := insertAll_eq items
  refine ⟨?_, ?_, ?_⟩
  · rw [he]; simp [h105]
  · intro i hi
    rw [he]
    rw [List.getElem?_take_of_lt (by omega), List.getElem?_reverse (by omega)]
    congr 1
    omega
  · intro j hj x hx hmem
    rw [he] at hmem
    obtain ⟨i, hi, hix⟩ := List.getElem_of_mem hmem
    have hi' : i < 100 := by
      have : (items.reverse.take 100).length = 100 := by simp [h105]
      omega
    rw [List.getElem_take] at hix
    rw [List.getElem_reverse] at hix
    obtain ⟨hjlt, hjx⟩ := List.getElem?_eq_some_iff.mp hx
    have hji : j = items.length - 1 - i :=
      hnd.getElem_inj_iff.mp (hjx.trans hix.symm)
    omega

/-- Witness for C2: the 105 concrete entries `demoItems`; afterwards the
log has 100 entries, the newest (`demoItem 104`) is at position 0, and the
oldest (`demoItem 0`) is absent. -/
theorem c2_history_bounded_witness :
    demoItems.length = 105 ∧
    (insertAll demoItems).length = 100 ∧
    (insertAll demoItems)[0]? = demoItems[104]? ∧
    demoItem 0 ∉ insertAll demoItems := by
  have h1 : demoItems.length = 105 := by simp [demoItems]
  have h2 : demoItems.Nodup := by
    refine List.Nodup.map ?_ (List.nodup_range 105)
    intro a b hab
    have := congrArg HistoryItem.result_count hab
    simpa [demoItem] using this
  have h := c2_history_bounded demoItems h1 h2
  refine ⟨h1, h.1, h.2.1 0 (by omega), h.2.2 0 (by omega) (demoItem 0) ?_⟩
  have : (0 : Nat) < demoItems.length := by omega
  rw [List.getElem?_eq_getElem this]
  simp [demoItems, demoItem]

/-! ## C6: inclusive year-range filtering -/

theorem searchPapers_base (records : List Paper) :
    searchPapers records "" "" none = records := by
  simp [searchPapers]

theorem searchPapers_year_split (records : List Paper) (kw strat lo hi : String) :
    searchPapers records kw strat (some (lo, hi)) =
      (searchPapers records kw strat none).filter (yearPred lo hi) := rfl

theorem pyStrLe_to_empty (s : String) (h : s.toList ≠ []) :
    pyStrLe s "" = false := by
  unfold pyStrLe
  cases hs : s.toList with
  | nil => exact absurd hs h
  | cons a as => rfl

theorem pyStrLe_unknown_right (hi : String) (h4 : fourDigit hi = true) :
    pyStrLe "Unknown" hi = false := by
  simp only [fourDigit, Bool.and_eq_true, List.all_eq_true, decide_eq_true_eq] at h4
  obtain ⟨hlen, hdig⟩ := h4
  cases hh : hi.toList with
  | nil => rw [hh] at hlen; simp at hlen
  | cons d ds =>
    have hd : 48 ≤ d.toNat ∧ d.toNat ≤ 57 := by
      have := hdig d (by rw [hh]; exact List.mem_cons_self d ds)
      simpa using this
    have hU : "Unknown".toList = 'U' :: "nknown".toList := rfl
    have hUval : ('U' : Char).toNat = 85 := rfl
    simp only [pyStrLe, hU, hh, lexLe, hUval]
    rw [if_neg (by omega), if_pos (by omega)]

/-- C6: year-range filtering with 4-digit string bounds is inclusive on
both ends — a record whose `pub_year` equals either bound of a well-ordered
range is retained by the bare year query — and a record whose `pub_year` is
the empty string or the sentinel `"Unknown"` is never retained by any
bounded query, whatever keyword and strategy accompany it. -/
theorem c6_year_range_inclusive (records : List Paper) (lo hi : String)
    (p : Paper) (hlo : fourDigit lo = true) (hhi : fourDigit hi = true) :
    (pyStrLe lo hi = true → p ∈ records → (p.pub_year = lo ∨ p.pub_year = hi) →
      p ∈ searchPapers records "" "" (some (lo, hi))) ∧
    ((p.pub_year = "" ∨ p.pub_year = "Unknown") →
      ∀ kw strat, p ∉ searchPapers records kw strat (some (lo, hi))) := by
  constructor
  · intro hrange hmem hbound
    rw [searchPapers_year_split, searchPapers_base]
    refine List.mem_filter.mpr ⟨hmem, ?_⟩
    cases hbound with
    | inl h =>
      simp [yearPred, h, pyStrLe, lexLe_refl]
      exact hrange
    | inr h =>
      simp [yearPred, h, pyStrLe, lexLe_refl]
      exact hrange
  · intro hy kw strat hmem
    rw [searchPapers_year_split] at hmem
    have hpred := (List.mem_filter.mp hmem).2
    cases hy with
    | inl h =>
      have hlolen : lo.toList ≠ [] := by
        simp only [fourDigit, Bool.and_eq_true] at hlo
        intro hnil
        rw [hnil] at hlo
        simp at hlo
      have : pyStrLe lo p.pub_year = false := by rw [h]; exact pyStrLe_to_empty lo hlolen
      simp [yearPred, this] at hpred
    | inr h =>
      have : pyStrLe p.pub_year hi = false := by rw [h]; exact pyStrLe_unknown_right hi hhi
      simp [yearPred, this] at hpred

/-- Witness for C6 at a concrete collection: the 2020 paper is retained by
the inclusive range 2020–2021, and the `"Unknown"`-year paper is rejected
by it. -/
theorem c6_year_range_witness :
    demoPaperAbc ∈ searchPapers [demoPaperAbc, demoPaperUnknown] "" ""
        (some ("2020", "2021")) ∧
    demoPaperUnknown ∉ searchPapers [demoPaperAbc, demoPaperUnknown] "" ""
        (some ("2020", "2021")) := by
  have h1 := c6_year_range_inclusive [demoPaperAbc, demoPaperUnknown]
    "2020" "2021" demoPaperAbc (by decide) (by decide)
  have h2 := c6_year_range_inclusive [demoPaperAbc, demoPaperUnknown]
    "2020" "2021" demoPaperUnknown (by decide) (by decide)
  constructor
  · exact h1.1 (by decide) (by simp [demoPaperAbc]) (Or.inl (by decide))
  · exact h2.2 (Or.inr (by decide)) "" ""

/-! ## C5: keyword filtering -/

theorem toNat_ofNat_valid {k : Nat} (h : k.isValidChar) :
    (Char.ofNat k).toNat = k := by
  simp [Char.ofNat, h, Char.ofNatAux, Char.toNat, UInt32.toNat]

theorem isRegexMeta_toLower (c : Char) :
    isRegexMeta c.toLower = isRegexMeta c := by
  by_cases h : 65 ≤ c.toNat ∧ c.toNat ≤ 90
  · have htl : c.toLower.toNat = c.toNat + 32 := by
      show (Char.toLower c).toNat = _
      unfold Char.toLower
      rw [if_pos ⟨h.1, h.2⟩]
      exact toNat_ofNat_valid (Or.inl (by omega))
    obtain ⟨h1, h2⟩ := h
    have hl : isRegexMeta c.toLower = false := by
      simp only [isRegexMeta, htl, Bool.or_eq_false_iff,
        decide_eq_false_iff_not]
      omega
    have hr : isRegexMeta c = false := by
      simp only [isRegexMeta, Bool.or_eq_false_iff, decide_eq_false_iff_not]
      omega
    rw [hl, hr]
  · have htl : c.toLower = c := by
      unfold Char.toLower
      rw [if_neg (by omega)]
    rw [htl]

theorem regexMatchAt_eq_listPrefix (pat : List Char)
    (h : ∀ c ∈ pat, isRegexMeta c = false) (s : List Char) :
    regexMatchAt pat s = listPrefix pat s := by
  induction pat generalizing s with
  | nil => cases s <;> rfl
  | cons p ps ih =>
    cases s with
    | nil => rfl
    | cons c cs =>
      have hp : isRegexMeta p = false := h p (List.mem_cons_self p ps)
      have hpd : p ≠ '.' := by
        intro he
        rw [he] at hp
        exact absurd hp (by decide)
      have ih' := ih (fun c hc => h c (List.mem_cons_of_mem p hc)) cs
      simp [regexMatchAt, listPrefix, regexCharMatch, hpd, ih']

theorem regexSearch_eq_containsSub (pat : List Char)
    (h : ∀ c ∈ pat, isRegexMeta c = false) (s : List Char) :
    regexSearch pat s = containsSub pat s := by
  induction s with
  | nil =>
    simp [regexSearch, containsSub, regexMatchAt_eq_listPrefix pat h]
  | cons c cs ih =>
    simp [regexSearch, containsSub, regexMatchAt_eq_listPrefix pat h, ih]

theorem containsSub_nil (hay : List Char) : containsSub [] hay = true := by
  cases hay <;> simp [containsSub, listPrefix]

theorem regexLiteral_pyLower (kw : String) (h : regexLiteralStr kw = true) :
    ∀ c ∈ (pyLower kw).toList, isRegexMeta c = false := by
  simp only [regexLiteralStr, List.all_eq_true, decide_eq_true_eq,
    Bool.not_eq_true] at h
  intro c hc
  simp only [pyLower, String.toList, List.mem_map] at hc
  obtain ⟨d, hd, rfl⟩ := hc
  rw [isRegexMeta_toLower]
  exact h d hd

theorem keywordPred_eq_spec (kw : String) (p : Paper)
    (h : regexLiteralStr kw = true) :
    keywordPred kw p = specKeywordMatch kw p := by
  have hmeta := regexLiteral_pyLower kw h
  unfold keywordPred specKeywordMatch
  rw [regexSearch_eq_containsSub _ hmeta]
  congr 1
  congr 1
  cases p.abstract with
  | none => rfl
  | some a => exact regexSearch_eq_containsSub _ hmeta _

/-- C5, counterexample: the claim says a record appears in the
keyword-filtered result only if the term appears as a substring of its
title, abstract or keywords.  The title/abstract match is pandas
`str.contains`, which treats the term as a regular expression: the term
`"a.c"` matches the title `"abc"` and the record is returned, although
`"a.c"` is a substring of none of its fields. -/
theorem c5_keyword_regex_counterexample :
    demoPaperAbc ∈ searchPapers [demoPaperAbc] "a.c" "" none ∧
    specKeywordMatch "a.c" demoPaperAbc = false := by
  exact ⟨by decide, by decide⟩

/-- C5, amended: for search terms free of regex metacharacters
(`. ^ $ * + ? { } [ ] \ | ( )`) the claim holds as stated: a record appears
in the keyword-filtered result iff the lowercased term occurs as a
substring of its lowercased title, or of its lowercased abstract, or of the
lowercased form of one of its keywords.  (For terms containing
metacharacters the title/abstract checks use regex semantics instead.) -/
theorem c5_keyword_filter_amended (records : List Paper) (kw : String)
    (p : Paper) (h : regexLiteralStr kw = true) :
    p ∈ searchPapers records kw "" none ↔
      p ∈ records ∧ specKeywordMatch kw p = true := by
  by_cases hkw : kw = ""
  · subst hkw
    rw [searchPapers_base]
    have hms : specKeywordMatch "" p = true := by
      have hnil : (pyLower "").toList = [] := rfl
      unfold specKeywordMatch
      rw [hnil]
      simp [containsSub_nil]
    simp [hms]
  · have : searchPapers records kw "" none = records.filter (keywordPred kw) := by
      simp [searchPapers, hkw]
    rw [this]
    rw [List.mem_filter, keywordPred_eq_spec kw p h]

/-- Witness for C5 amended at the literal term `"BMAL1"` over a
two-record collection: the record mentioning BMAL1 in its title is
returned, the other is not. -/
theorem c5_keyword_filter_witness :
    (demoPaperBmal ∈ searchPapers [demoPaperAbc, demoPaperBmal] "BMAL1" "" none ↔
      demoPaperBmal ∈ [demoPaperAbc, demoPaperBmal] ∧
        specKeywordMatch "BMAL1" demoPaperBmal = true) ∧
    (demoPaperAbc ∈ searchPapers [demoPaperAbc, demoPaperBmal] "BMAL1" "" none ↔
      demoPaperAbc ∈ [demoPaperAbc, demoPaperBmal] ∧
        specKeywordMatch "BMAL1" demoPaperAbc = true) := by
  exact ⟨c5_keyword_filter_amended [demoPaperAbc, demoPaperBmal] "BMAL1"
      demoPaperBmal (by decide),
    c5_keyword_filter_amended [demoPaperAbc, demoPaperBmal] "BMAL1"
      demoPaperAbc (by decide)⟩

/-! ## C8: fetch behaviour on undecodable multi-valued fields -/

/-- C8, counterexample: the claim says a record whose serialized
multi-valued field cannot be decoded is still returned with that field
empty.  In the code only NULL and the empty string degrade to `[]`
(`json.loads(x) if x else []`); a non-empty undecodable value makes
`json.loads` raise, aborting the whole fetch: on the single row
`demoBadRow`, whose `keywords` column holds `"not json"`, the fetch
returns no records at all. -/
theorem c8_decode_abort_counterexample :
    getAllPapers [demoBadRow] = .error () := rfl

/-- C8, amended: only a missing (NULL) or empty serialized field degrades
to an empty sequence; a record containing a non-empty undecodable
multi-valued field makes the whole fetch raise instead of returning
records; and when every row decodes, the fetch returns exactly one record
per stored row. -/
theorem c8_fetch_amended (rows : List StoredPaper) (r : StoredPaper) :
    (decodeField none = Except.ok ([] : List String) ∧
      decodeField (some "") = Except.ok ([] : List String)) ∧
    (r ∈ rows → decodeRow r = .error () → getAllPapers rows = .error ()) ∧
    ((∀ s ∈ rows, (decodeRow s).isOk = true) →
      ∃ papers, getAllPapers rows = .ok papers ∧
        papers.length = rows.length) := by
  refine ⟨⟨rfl, rfl⟩, ?_, ?_⟩
  · induction rows with
    | nil => intro hmem; cases hmem
    | cons a l ih =>
      intro hmem herr
      rcases List.mem_cons.mp hmem with hra | hrl
      · subst hra
        simp [getAllPapers, herr]
      · have hl := ih hrl herr
        cases ha : decodeRow a <;> simp [getAllPapers, ha, hl]
  · induction rows with
    | nil => intro _; exact ⟨[], rfl, rfl⟩
    | cons a l ih =>
      intro hall
      have ha : (decodeRow a).isOk = true := hall a (List.mem_cons_self a l)
      obtain ⟨p, hp⟩ : ∃ p, decodeRow a = .ok p := by
        cases hd : decodeRow a with
        | ok p => exact ⟨p, rfl⟩
        | error e => rw [hd] at ha; simp [Except.isOk, Except.toBool] at ha
      obtain ⟨ps, hps, hlen⟩ :=
        ih (fun s hs => hall s (List.mem_cons_of_mem a hs))
      exact ⟨p :: ps, by simp [getAllPapers, hp, hps], by simp [hlen]⟩

/-- Witness for C8 amended: NULL degrades to `[]`, and the fully decodable
single-row store `[demoGoodRow]` (NULL authors, empty keywords, well-formed
mesh terms) is fetched whole. -/
theorem c8_fetch_witness :
    decodeField none = Except.ok ([] : List String) ∧
    (∃ papers, getAllPapers [demoGoodRow] = .ok papers ∧
      papers.length = [demoGoodRow].length) := by
  have h := c8_fetch_amended [demoGoodRow] demoGoodRow
  refine ⟨h.1.1, h.2.2 ?_⟩
  intro s hs
  rw [List.mem_singleton.mp hs]
  decide

end BMAL1
